import Mathlib

/-!
Shallow embedding of `src/matrix.py` (terminal "digital rain" animation).

Pure functions of the source become Lean functions; the per-column
animation generator `animate_rain` becomes an explicit state machine
(`AnimState`, `animStep`, `animAlive`); the `rain` wrapper generator and
the `main` frame loop become explicit state-passing functions
(`rainNext`, `sweep`, `frame`, `runMain`).  Randomness (`random.choice`,
`random.randint`) is modelled by explicit choice parameters that are
universally quantified in the theorems.  Machine integers are `Int`
(Python integers are unbounded, so no wrap-around modelling is needed).
-/

namespace MatrixRain

/-- Constant from the source: `NUMBER_OF_COLOR = 50`. -/
def NUMBER_OF_COLOR : Int := 50

/-- Constant from the source: `START_COLOR_NUM = 128`. -/
def START_COLOR_NUM : Int := 128

/-- ncurses attribute bit `A_STANDOUT` (`1 <<< 16`), as seen by the Python code. -/
def A_STANDOUT : Nat := 65536

/-- ncurses attribute bit `A_BOLD` (`1 <<< 21`), as seen by the Python code. -/
def A_BOLD : Nat := 2097152

/-- ncurses `COLOR_WHITE`. -/
def COLOR_WHITE : Nat := 7

/-- Source: `HEAD_STANDOUT = curses.COLOR_WHITE | curses.A_STANDOUT`. -/
def HEAD_STANDOUT : Nat := COLOR_WHITE ||| A_STANDOUT

/-- Source: `HEAD_BOLD = curses.COLOR_WHITE | curses.A_BOLD`. -/
def HEAD_BOLD : Nat := COLOR_WHITE ||| A_BOLD

/-- curses `ERR` sentinel returned by `getch()` when no key is pending. -/
def ERR : Int := -1

/-- Source `update_style`: `options['head'] = HEAD_BOLD if options['head'] == HEAD_STANDOUT else HEAD_STANDOUT`. -/
def update_style (head : Nat) : Nat :=
  if head = HEAD_STANDOUT then HEAD_BOLD else HEAD_STANDOUT

/-- Key-handling step of `main`'s loop body:
`ch = stdscr.getch(); if ch != curses.ERR and ch != ord(' '): if ch == ord('h'): update_style() else: break`.
Returns `(continue?, new head style)`; `ord(' ') = 32`, `ord('h') = 104`. -/
def handle_key (ch : Int) (head : Nat) : Bool × Nat :=
  if ch ≠ ERR ∧ ch ≠ 32 then
    if ch = 104 then (true, update_style head) else (false, head)
  else
    (true, head)

/-- Local variables of `animate_rain` (`head, middle, tail`), between two `yield`s. -/
structure AnimState where
  head : Int
  middle : Int
  tail : Int
deriving Repr, DecidableEq

/-- Source: `head, middle, tail = 0, 0, 0` before the loop. -/
def animInit : AnimState := ⟨0, 0, 0⟩

/-- Loop guard of `animate_rain`: `while tail < curses.LINES`.  `rows` is `curses.LINES`. -/
def animAlive (rows : Int) (s : AnimState) : Bool := s.tail < rows

/-- One iteration of `animate_rain`'s loop body (state part): compute `middle` and
`tail` from the current `head` with clamping at 0, then `head = head + speed`.
Mirrors lines 106-120 of the source (the drawing calls are modelled separately
by `animStepCells`). -/
def animStep (maxLength speed : Int) (s : AnimState) : AnimState :=
  ⟨s.head + speed,
   if s.head - maxLength / 2 < 0 then 0 else s.head - maxLength / 2,
   if s.head - maxLength < 0 then 0 else s.head - maxLength⟩

/-- State of a single rain after `k` advance (`next`) calls, starting from `animInit`. -/
def animIter (maxLength speed : Int) (k : Nat) : AnimState :=
  (animStep maxLength speed)^[k] animInit

/-- A single cell write `stdscr.addstr(row, col, ...)`. -/
structure Cell where
  row : Int
  col : Int
deriving Repr, DecidableEq

/-- Python `range(a, b)` over integers. -/
def pyRange (a b : Int) : List Int := (List.range (b - a).toNat).map (fun (k : Nat) => a + (k : Int))

/-- Cells written by `show_head`: one cell at `(head, x)` if `head < curses.LINES`. -/
def show_head_cells (rows head x : Int) : List Cell :=
  if head < rows then [⟨head, x⟩] else []

/-- Cells written by `show_body`: in gradient mode rows `range(tail, min(head, LINES))`;
in fallback mode rows `range(tail, min(middle, LINES))` then `range(middle, min(head, LINES))`. -/
def show_body_cells (useGradient : Bool) (rows head middle tail x : Int) : List Cell :=
  if useGradient then
    (pyRange tail (min head rows)).map (fun i => ⟨i, x⟩)
  else
    (pyRange tail (min middle rows)).map (fun i => ⟨i, x⟩)
      ++ (pyRange middle (min head rows)).map (fun i => ⟨i, x⟩)

/-- Cells written by `show_tail`: rows `range(max(0, tail - speed), min(tail, LINES))`. -/
def show_tail_cells (rows tail x speed : Int) : List Cell :=
  (pyRange (max 0 (tail - speed)) (min tail rows)).map (fun i => ⟨i, x⟩)

/-- All cells written during one iteration of `animate_rain`'s loop body, in order:
the tail clear (only on the `else` branch of `if tail < 0`), then the body, then the
head.  `middle` and `tail` are the clamped values computed from the pre-advance `head`. -/
def animStepCells (useGradient : Bool) (rows maxLength speed x : Int) (s : AnimState) : List Cell :=
  (if s.head - maxLength < 0 then []
   else show_tail_cells rows (s.head - maxLength) x speed)
  ++ show_body_cells useGradient rows s.head
      (if s.head - maxLength / 2 < 0 then 0 else s.head - maxLength / 2)
      (if s.head - maxLength < 0 then 0 else s.head - maxLength) x
  ++ show_head_cells rows s.head x

/-- Bounds check for a list of cell writes: every row in `[0, rows)`, every column in
`[0, cols)`. -/
def cellsInBounds (rows cols : Int) (cs : List Cell) : Bool :=
  cs.all fun c => decide (0 ≤ c.row) && decide (c.row < rows) && decide (0 ≤ c.col) && decide (c.col < cols)

/-- Source `get_color` color index: `color_num = NUMBER_OF_COLOR - (head - i) + 1;
if color_num < 0: color_num = 0`.  The `tail` argument is accepted (as in the source)
but unused. -/
def get_color_num (i head _tail : Int) : Int :=
  if NUMBER_OF_COLOR - (head - i) + 1 < 0 then 0 else NUMBER_OF_COLOR - (head - i) + 1

/-- Color pair id returned by `get_color`: `curses.color_pair(START_COLOR_NUM + color_num)`. -/
def get_color (i head tail : Int) : Int := START_COLOR_NUM + get_color_num i head tail

/-- Modelled from the spec: `clamp(v, lo, hi)` as used in the spec's gradient formula. -/
def clampSpec (v lo hi : Int) : Int := max lo (min v hi)

/-- Modelled from the spec: gradient color index for row `i` under head `head`,
`clamp(N - (head - i) + 1, 0, N)`. -/
def gradientIndexSpec (i head : Int) : Int :=
  clampSpec (NUMBER_OF_COLOR - (head - i) + 1) 0 NUMBER_OF_COLOR

/-- State of one element of `main`'s `rains` list whose `rain` generator has been
started: the column `x` it removed from the pool, the chosen `max_length` and `speed`,
and the current `animate_rain` state. -/
structure RainGen where
  x : Nat
  maxLength : Int
  speed : Int
  st : AnimState
deriving Repr, DecidableEq

/-- Random outcomes consumed when a `rain` generator (re)starts: which pool element
`random.choice` picks (an index, taken mod the pool length), `random_rain_length()`,
and `random.randint(1, options['speed'])`. -/
structure Choice where
  pick : Nat
  len : Int
  spd : Int

/-- Column held by one `rains` entry (`none` = generator appended but not yet started,
holding no column). -/
def heldOpt : Option RainGen → List Nat
  | none => []
  | some g => [g.x]

/-- Columns held by the `rains` list. -/
def heldColumns : List (Option RainGen) → List Nat
  | [] => []
  | g :: gs => heldOpt g ++ heldColumns gs

/-- The acquisition phase of the `rain` generator followed by the first loop iteration
of the new `animate_rain`: `x = random.choice(pool); pool.remove(x)` then run
`animate_rain` up to its first `yield` (its guard `0 < curses.LINES` holds in any
real terminal, so the first iteration always runs).  An empty pool would raise
`IndexError` in the source (`random.choice` on an empty list); that unreachable
path is modelled by leaving the state unchanged. -/
def acquireAndStep (c : Choice) (pool : List Nat) : List Nat × Option RainGen :=
  if h : pool = [] then (pool, none)
  else
    let x := pool.get ⟨c.pick % pool.length, Nat.mod_lt _ (List.length_pos.mpr h)⟩
    (pool.erase x, some ⟨x, c.len, c.spd, animStep c.len c.spd animInit⟩)

/-- One `next(r)` call on a `rains` entry.  An unstarted generator acquires a column
and runs the first animation iteration.  A started one either runs one more iteration
(guard `tail < curses.LINES` holds), or — when the guard fails, i.e. `animate_rain`
raises `StopIteration` — executes `pool.append(x)` and immediately re-acquires a
column for a fresh `animate_rain` (the `while True` loop of `rain`). -/
def rainNext (rows : Int) (c : Choice) : List Nat × Option RainGen → List Nat × Option RainGen
  | (pool, none) => acquireAndStep c pool
  | (pool, some g) =>
    if animAlive rows g.st then
      (pool, some ⟨g.x, g.maxLength, g.speed, animStep g.maxLength g.speed g.st⟩)
    else
      acquireAndStep c (pool ++ [g.x])

/-- The advance sweep `for r in rains: next(r)` of `main`, threading the pool.
`cs k` supplies the random outcomes for the `k`-th entry on this frame (used only
when that entry starts or recycles). -/
def sweep (rows : Int) (cs : Nat → Choice) : Nat → List Nat → List (Option RainGen) → List Nat × List (Option RainGen)
  | _, pool, [] => (pool, [])
  | k, pool, g :: gs =>
    let pg := rainNext rows (cs k) (pool, g)
    let rest := sweep rows cs (k + 1) pg.1 gs
    (rest.1, pg.2 :: rest.2)

/-- Source `add_rain`: `if (len(rains) < options['count']) and (len(pool) > 0):
rains.append(rain(stdscr, pool))`.  The appended generator is unstarted (`none`). -/
def add_rain (count : Nat) (rains : List (Option RainGen)) (pool : List Nat) : List (Option RainGen) :=
  if rains.length < count ∧ 0 < pool.length then rains ++ [none] else rains

/-- Random outcomes and key input of one frame of the main loop. -/
structure FrameChoice where
  choices : Nat → Choice
  key : Int

/-- State of `main`'s loop: the free-column pool, the `rains` list, `options['head']`,
and whether the loop is still running. -/
structure SysState where
  pool : List Nat
  rains : List (Option RainGen)
  head_style : Nat
  running : Bool

/-- State on entry to `main`'s loop: `rains = []`, `pool = list(range(curses.COLS - 1))`,
`options['head'] = HEAD_STANDOUT`.  `cols` is `curses.COLS`. -/
def initState (cols : Nat) : SysState :=
  ⟨List.range (cols - 1), [], HEAD_STANDOUT, true⟩

/-- One iteration of `main`'s `while True` loop: `add_rain`, advance every entry of
`rains` once, then poll and handle one key.  A `break` is modelled by clearing
`running`; a stopped loop no longer changes state. -/
def frame (rows : Int) (count : Nat) (fc : FrameChoice) (s : SysState) : SysState :=
  if s.running then
    let rains1 := add_rain count s.rains s.pool
    let swept := sweep rows fc.choices 0 s.pool rains1
    let keyed := handle_key fc.key s.head_style
    ⟨swept.1, swept.2, keyed.2, keyed.1⟩
  else s

/-- The main loop after `n` frames, from the initial state. -/
def runMain (rows : Int) (count cols : Nat) (fcs : Nat → FrameChoice) : Nat → SysState
  | 0 => initState cols
  | n + 1 => frame rows count (fcs n) (runMain rows count cols fcs n)

/-- A concrete random outcome (pick index 0, length 0, speed 1) used by concrete runs. -/
def sampleChoice : Choice := ⟨0, 0, 1⟩

/-- Concrete frames: every generator start uses `sampleChoice`, no key is ever pending. -/
def sampleFrames : Nat → FrameChoice := fun _ => ⟨fun _ => sampleChoice, ERR⟩

/-! Helper lemmas. -/

theorem animIter_succ (L spd : Int) (k : Nat) :
    animIter L spd (k + 1) = animStep L spd (animIter L spd k) :=
  Function.iterate_succ_apply' _ _ _

theorem animStep_head (L spd : Int) (s : AnimState) : (animStep L spd s).head = s.head + spd := rfl

theorem animStep_middle (L spd : Int) (s : AnimState) :
    (animStep L spd s).middle = if s.head - L / 2 < 0 then 0 else s.head - L / 2 := rfl

theorem animStep_tail (L spd : Int) (s : AnimState) :
    (animStep L spd s).tail = if s.head - L < 0 then 0 else s.head - L := rfl

theorem animIter_head_nonneg (L spd : Int) (k : Nat) (hs : 0 ≤ spd) :
    0 ≤ (animIter L spd k).head := by
  induction k with
  | zero => simp [animIter, animInit]
  | succ k ih => rw [animIter_succ, animStep_head]; omega

theorem animIter_head_eq (L spd : Int) (k : Nat) : (animIter L spd k).head = spd * k := by
  induction k with
  | zero => simp [animIter, animInit]
  | succ k ih =>
    rw [animIter_succ, animStep_head, ih]
    push_cast
    ring

/-! Claim theorems. -/

/-- C5 (confirmed): after each advance of a stream (nonnegative length and speed),
the stored derived positions satisfy `0 ≤ tail ≤ middle ≤ head`, and `tail` is
non-decreasing across successive advances. -/
theorem stream_positions_ordered (L spd : Int) (k : Nat) (hL : 0 ≤ L) (hs : 0 ≤ spd) :
    (0 ≤ (animIter L spd (k + 1)).tail
      ∧ (animIter L spd (k + 1)).tail ≤ (animIter L spd (k + 1)).middle
      ∧ (animIter L spd (k + 1)).middle ≤ (animIter L spd (k + 1)).head)
    ∧ (animIter L spd (k + 1)).tail ≤ (animIter L spd (k + 2)).tail := by
  have h0 : 0 ≤ (animIter L spd k).head := animIter_head_nonneg L spd k hs
  have e2 : animIter L spd (k + 2) = animStep L spd (animIter L spd (k + 1)) := by
    rw [(by omega : k + 2 = (k + 1) + 1), animIter_succ]
  rw [e2, animIter_succ, animStep_head, animStep_middle, animStep_tail, animStep_tail,
    animStep_head]
  split_ifs <;> omega

/-- C5 witness: the ordering and monotonicity at `length = 10`, `speed = 2`, `k = 3`. -/
theorem stream_positions_ordered_witness :
    (0 ≤ (animIter 10 2 4).tail
      ∧ (animIter 10 2 4).tail ≤ (animIter 10 2 4).middle
      ∧ (animIter 10 2 4).middle ≤ (animIter 10 2 4).head)
    ∧ (animIter 10 2 4).tail ≤ (animIter 10 2 5).tail :=
  stream_positions_ordered 10 2 3 (by decide) (by decide)

/-- C10 (confirmed): with `speed ≥ 1` and `length ≥ 0`, a stream's advance loop
terminates: as soon as `speed * k` exceeds `rows + length` — about
`(rows + length)/speed + 1` advances — the loop guard `tail < rows` fails at every
later advance, because `head` grows by the fixed positive speed each advance. -/
theorem stream_terminates (rows L spd : Int) (k m : Nat) (hrows : 0 ≤ rows) (_hL : 0 ≤ L)
    (hspd : 1 ≤ spd) (hk : rows + L < spd * (k : Int)) (hm : k + 1 ≤ m) :
    animAlive rows (animIter L spd m) = false := by
  obtain ⟨j, rfl⟩ : ∃ j, m = j + 1 := ⟨m - 1, by omega⟩
  have hj : (k : Int) ≤ (j : Int) := by exact_mod_cast Nat.le_of_succ_le_succ hm
  have hmul : spd * (k : Int) ≤ spd * (j : Int) := mul_le_mul_of_nonneg_left hj (by omega)
  have hhead : (animIter L spd j).head = spd * (j : Int) := animIter_head_eq L spd j
  rw [animIter_succ]
  simp only [animAlive, animStep_tail, hhead, decide_eq_false_iff_not]
  split_ifs with h <;> [linarith; linarith]

/-- C10 witness: `rows = 20`, `length = 10`, `speed = 2`; `2 * 16 > 30`, so the guard
has failed by the 17th advance. -/
theorem stream_terminates_witness : animAlive 20 (animIter 10 2 17) = false :=
  stream_terminates 20 10 2 16 17 (by decide) (by decide) (by decide) (by decide) (by decide)

/-- C3 counterexample: in the scenario `rows = 20`, `length = 10`, `speed = 2`, after
10 advances the stream's tail is 8, not 10 as claimed, and after 15 advances the tail
is 18 (< 20), so the stream has not finished after 15 advances. -/
theorem scenario_trace_cex :
    (animIter 10 2 10).tail = 8 ∧ ¬(animIter 10 2 10).tail = 10
    ∧ (animIter 10 2 15).tail = 18 ∧ animAlive 20 (animIter 10 2 15) = true := by
  decide

/-- C3 (amended): in the scenario `rows = 20`, `length = 10`, `speed = 2`, head
starting at 0: after 5 advances `head = 10`, `tail = 0`; after 10 advances
`head = 20`, `tail = 8`; after 15 advances `head = 30`, `tail = 18` (still falling);
after 16 advances `head = 32`, `tail = 20`; the 17th advance call finds
`tail ≥ rows`, so the stream reports Finished: its column 3 is appended to the pool
and — in the same call — a replacement stream acquires a column from that pool. -/
theorem scenario_trace :
    animIter 10 2 5 = ⟨10, 3, 0⟩
    ∧ animIter 10 2 10 = ⟨20, 13, 8⟩
    ∧ animIter 10 2 15 = ⟨30, 23, 18⟩
    ∧ animAlive 20 (animIter 10 2 15) = true
    ∧ animIter 10 2 16 = ⟨32, 25, 20⟩
    ∧ animAlive 20 (animIter 10 2 16) = false
    ∧ rainNext 20 ⟨0, 10, 2⟩ ([], some ⟨3, 10, 2, animIter 10 2 16⟩)
        = acquireAndStep ⟨0, 10, 2⟩ ([] ++ [3])
    ∧ acquireAndStep ⟨0, 10, 2⟩ [3] = ([], some ⟨3, 10, 2, ⟨2, 0, 0⟩⟩) := by
  decide

/-- C4 counterexample: the code's color index is `50 - (head - i) + 1` clamped only
from below, so at `i = head = 0` it is 51, which differs from
`clamp(N - (head - i) + 1, 0, N) = 50` and lies outside `[0, N]`. -/
theorem gradient_color_cex :
    get_color_num 0 0 0 = 51 ∧ gradientIndexSpec 0 0 = 50
    ∧ ¬get_color_num 0 0 0 ≤ NUMBER_OF_COLOR := by
  decide

/-- C4 (amended): the gradient color index is monotonically non-increasing in the
distance `head - i` for all arguments, and for every row strictly above the head
(`i < head`, the only rows `show_body` passes to `get_color`) it equals
`clamp(N - (head - i) + 1, 0, N)` and lies in `[0, N]`. -/
theorem gradient_color_spec (i hd t i2 hd2 t2 : Int) :
    (hd - i ≤ hd2 - i2 → get_color_num i2 hd2 t2 ≤ get_color_num i hd t)
    ∧ (i < hd → get_color_num i hd t = gradientIndexSpec i hd
        ∧ 0 ≤ get_color_num i hd t ∧ get_color_num i hd t ≤ NUMBER_OF_COLOR) := by
  unfold get_color_num gradientIndexSpec clampSpec NUMBER_OF_COLOR
  constructor
  · intro h
    split_ifs <;> omega
  · intro h
    split_ifs <;> refine ⟨?_, ?_, ?_⟩ <;> omega

/-- C4 witness: at head 5, the index for row 2 (distance 3) is at most the index for
row 3 (distance 2), and row 3 matches the spec's clamp formula. -/
theorem gradient_color_spec_witness :
    (get_color_num 2 5 0 ≤ get_color_num 3 5 0)
    ∧ (get_color_num 3 5 0 = gradientIndexSpec 3 5
        ∧ 0 ≤ get_color_num 3 5 0 ∧ get_color_num 3 5 0 ≤ NUMBER_OF_COLOR) :=
  ⟨(gradient_color_spec 3 5 0 2 5 0).1 (by decide), (gradient_color_spec 3 5 0 2 5 0).2 (by decide)⟩

/-- C9 (confirmed): the toggle maps any value into the two-element set
`{HEAD_STANDOUT, HEAD_BOLD}` (so the setting, initialized to `HEAD_STANDOUT` and
mutated only by the toggle, always holds one of exactly two distinct values), and on
that set the toggle is an involution. -/
theorem style_toggle_involution (h : Nat) :
    (update_style h = HEAD_STANDOUT ∨ update_style h = HEAD_BOLD)
    ∧ (h = HEAD_STANDOUT ∨ h = HEAD_BOLD → update_style (update_style h) = h)
    ∧ HEAD_STANDOUT ≠ HEAD_BOLD := by
  refine ⟨?_, ?_, by decide⟩
  · unfold update_style
    split_ifs <;> [exact Or.inr rfl; exact Or.inl rfl]
  · rintro (rfl | rfl) <;> decide

/-- C9 witness: toggling twice from `HEAD_BOLD` returns `HEAD_BOLD`. -/
theorem style_toggle_involution_witness :
    update_style (update_style HEAD_BOLD) = HEAD_BOLD :=
  (style_toggle_involution HEAD_BOLD).2.1 (Or.inr rfl)

/-- C8 (confirmed): the per-frame key handling: `ERR` (no key pending) continues
unchanged; space continues unchanged; `'h'` (104) continues with the head style
toggled; any other key stops the loop, and a stopped loop no longer changes state. -/
theorem key_handling_spec (style : Nat) (rows : Int) (count : Nat)
    (fc : FrameChoice) (s : SysState) (s2 : SysState) :
    handle_key ERR style = (true, style)
    ∧ handle_key 32 style = (true, style)
    ∧ handle_key 104 style = (true, update_style style)
    ∧ (∀ ch, ch ≠ ERR → ch ≠ 32 → ch ≠ 104 → handle_key ch style = (false, style))
    ∧ (s.running = true → fc.key ≠ ERR → fc.key ≠ 32 → fc.key ≠ 104 →
        (frame rows count fc s).running = false)
    ∧ (s2.running = false → frame rows count fc s2 = s2) := by
  refine ⟨?_, ?_, ?_, ?_, ?_, ?_⟩
  · rw [handle_key, if_neg (by simp)]
  · rw [handle_key, if_neg (by simp [ERR])]
  · rw [handle_key, if_pos (by decide), if_pos rfl]
  · intro ch h1 h2 h3
    rw [handle_key, if_pos ⟨h1, h2⟩, if_neg h3]
  · intro hr h1 h2 h3
    simp only [frame, hr, if_true]
    rw [handle_key, if_pos ⟨h1, h2⟩, if_neg h3]
  · intro hr
    simp [frame, hr]

/-- C8 witness: the four key cases at concrete keys, and a concrete frame in which
pressing `'q'` (113) stops the loop, while a stopped frame is a no-op. -/
theorem key_handling_spec_witness :
    handle_key ERR HEAD_STANDOUT = (true, HEAD_STANDOUT)
    ∧ handle_key 32 HEAD_STANDOUT = (true, HEAD_STANDOUT)
    ∧ handle_key 104 HEAD_STANDOUT = (true, update_style HEAD_STANDOUT)
    ∧ handle_key 113 HEAD_STANDOUT = (false, HEAD_STANDOUT)
    ∧ (frame 24 5 ⟨fun _ => sampleChoice, 113⟩ (initState 3)).running = false
    ∧ frame 24 5 ⟨fun _ => sampleChoice, 113⟩ ⟨[], [], HEAD_STANDOUT, false⟩
        = ⟨[], [], HEAD_STANDOUT, false⟩ :=
  ⟨(key_handling_spec HEAD_STANDOUT 24 5 ⟨fun _ => sampleChoice, 113⟩ (initState 3)
      ⟨[], [], HEAD_STANDOUT, false⟩).1,
   (key_handling_spec HEAD_STANDOUT 24 5 ⟨fun _ => sampleChoice, 113⟩ (initState 3)
      ⟨[], [], HEAD_STANDOUT, false⟩).2.1,
   (key_handling_spec HEAD_STANDOUT 24 5 ⟨fun _ => sampleChoice, 113⟩ (initState 3)
      ⟨[], [], HEAD_STANDOUT, false⟩).2.2.1,
   (key_handling_spec HEAD_STANDOUT 24 5 ⟨fun _ => sampleChoice, 113⟩ (initState 3)
      ⟨[], [], HEAD_STANDOUT, false⟩).2.2.2.1 113 (by decide) (by decide) (by decide),
   (key_handling_spec HEAD_STANDOUT 24 5 ⟨fun _ => sampleChoice, 113⟩ (initState 3)
      ⟨[], [], HEAD_STANDOUT, false⟩).2.2.2.2.1 rfl (by decide) (by decide) (by decide),
   (key_handling_spec HEAD_STANDOUT 24 5 ⟨fun _ => sampleChoice, 113⟩ (initState 3)
      ⟨[], [], HEAD_STANDOUT, false⟩).2.2.2.2.2 rfl⟩

/-! Pool-accounting machinery. -/

theorem rainNext_none (rows : Int) (c : Choice) (pool : List Nat) :
    rainNext rows c (pool, none) = acquireAndStep c pool := rfl

theorem rainNext_some (rows : Int) (c : Choice) (pool : List Nat) (g : RainGen) :
    rainNext rows c (pool, some g) =
      if animAlive rows g.st then
        (pool, some ⟨g.x, g.maxLength, g.speed, animStep g.maxLength g.speed g.st⟩)
      else acquireAndStep c (pool ++ [g.x]) := rfl

theorem sweep_nil (rows : Int) (cs : Nat → Choice) (k : Nat) (pool : List Nat) :
    sweep rows cs k pool [] = (pool, []) := rfl

theorem sweep_cons (rows : Int) (cs : Nat → Choice) (k : Nat) (pool : List Nat)
    (g : Option RainGen) (gs : List (Option RainGen)) :
    sweep rows cs k pool (g :: gs) =
      ((sweep rows cs (k + 1) (rainNext rows (cs k) (pool, g)).1 gs).1,
       (rainNext rows (cs k) (pool, g)).2
         :: (sweep rows cs (k + 1) (rainNext rows (cs k) (pool, g)).1 gs).2) := rfl

theorem sweep_length (rows : Int) (cs : Nat → Choice) :
    ∀ (gs : List (Option RainGen)) (k : Nat) (pool : List Nat),
      (sweep rows cs k pool gs).2.length = gs.length := by
  intro gs
  induction gs with
  | nil => intro k pool; rfl
  | cons g gs ih => intro k pool; rw [sweep_cons]; simp [ih]

theorem acquireAndStep_perm (c : Choice) (pool : List Nat) :
    List.Perm ((acquireAndStep c pool).1 ++ heldOpt (acquireAndStep c pool).2) pool := by
  rw [acquireAndStep]
  split_ifs with h
  · simp [heldOpt]
  · simp only [heldOpt]
    have hx : pool.get ⟨c.pick % pool.length, Nat.mod_lt _ (List.length_pos.mpr h)⟩ ∈ pool :=
      List.get_mem pool _ _
    exact (List.perm_append_singleton _ _).trans (List.perm_cons_erase hx).symm

theorem rainNext_perm (rows : Int) (c : Choice) (pool : List Nat) (g : Option RainGen) :
    List.Perm ((rainNext rows c (pool, g)).1 ++ heldOpt (rainNext rows c (pool, g)).2)
      (pool ++ heldOpt g) := by
  match g with
  | none =>
    rw [rainNext_none]
    simp only [heldOpt, List.append_nil]
    exact acquireAndStep_perm c pool
  | some g =>
    rw [rainNext_some]
    split_ifs with ha
    · simp [heldOpt]
    · simp only [heldOpt]
      exact acquireAndStep_perm c (pool ++ [g.x])

theorem sweep_perm (rows : Int) (cs : Nat → Choice) :
    ∀ (gs : List (Option RainGen)) (k : Nat) (pool : List Nat),
      List.Perm ((sweep rows cs k pool gs).1 ++ heldColumns (sweep rows cs k pool gs).2)
        (pool ++ heldColumns gs) := by
  intro gs
  induction gs with
  | nil => intro k pool; simp [sweep_nil, heldColumns]
  | cons g gs ih =>
    intro k pool
    rw [sweep_cons]
    simp only [heldColumns]
    rw [← Multiset.coe_eq_coe]
    have h1 := (Multiset.coe_eq_coe).mpr (rainNext_perm rows (cs k) pool g)
    have h2 := (Multiset.coe_eq_coe).mpr (ih (k + 1) (rainNext rows (cs k) (pool, g)).1)
    simp only [← Multiset.coe_add] at h1 h2 ⊢
    have e : ((sweep rows cs (k + 1) (rainNext rows (cs k) (pool, g)).1 gs).1 : Multiset Nat)
        + ((heldOpt (rainNext rows (cs k) (pool, g)).2 : Multiset Nat)
          + (heldColumns (sweep rows cs (k + 1) (rainNext rows (cs k) (pool, g)).1 gs).2 : Multiset Nat))
        = ((sweep rows cs (k + 1) (rainNext rows (cs k) (pool, g)).1 gs).1 : Multiset Nat)
          + (heldColumns (sweep rows cs (k + 1) (rainNext rows (cs k) (pool, g)).1 gs).2 : Multiset Nat)
          + (heldOpt (rainNext rows (cs k) (pool, g)).2 : Multiset Nat) := by abel
    rw [e, h2]
    have e2 : ((rainNext rows (cs k) (pool, g)).1 : Multiset Nat) + (heldColumns gs : Multiset Nat)
        + (heldOpt (rainNext rows (cs k) (pool, g)).2 : Multiset Nat)
        = ((rainNext rows (cs k) (pool, g)).1 : Multiset Nat)
          + (heldOpt (rainNext rows (cs k) (pool, g)).2 : Multiset Nat)
          + (heldColumns gs : Multiset Nat) := by abel
    rw [e2, h1]
    abel

theorem heldColumns_append (l1 l2 : List (Option RainGen)) :
    heldColumns (l1 ++ l2) = heldColumns l1 ++ heldColumns l2 := by
  induction l1 with
  | nil => rfl
  | cons g gs ih => simp [heldColumns, ih, List.append_assoc]

theorem heldColumns_add_rain (count : Nat) (rains : List (Option RainGen)) (pool : List Nat) :
    heldColumns (add_rain count rains pool) = heldColumns rains := by
  rw [add_rain]
  split_ifs with h
  · rw [heldColumns_append]
    simp [heldColumns, heldOpt]
  · rfl

theorem frame_perm (rows : Int) (count : Nat) (fc : FrameChoice) (s : SysState) :
    List.Perm ((frame rows count fc s).pool ++ heldColumns (frame rows count fc s).rains)
      (s.pool ++ heldColumns s.rains) := by
  by_cases hr : s.running = true
  · simp only [frame, hr, if_true]
    have hp := sweep_perm rows fc.choices (add_rain count s.rains s.pool) 0 s.pool
    rw [heldColumns_add_rain] at hp
    exact hp
  · rw [frame, if_neg hr]

theorem runMain_rains_length (rows : Int) (count cols : Nat) (fcs : Nat → FrameChoice) :
    ∀ n, (runMain rows count cols fcs n).rains.length ≤ count := by
  intro n
  induction n with
  | zero => simp [runMain, initState]
  | succ n ih =>
    show (frame rows count (fcs n) (runMain rows count cols fcs n)).rains.length ≤ count
    by_cases hr : (runMain rows count cols fcs n).running = true
    · simp only [frame, hr, if_true]
      rw [sweep_length]
      rw [add_rain]
      split_ifs with h
      · simp only [List.length_append, List.length_singleton]
        omega
      · exact ih
    · rw [frame, if_neg hr]
      exact ih

/-- C1 counterexample: with 10 terminal columns the pool starts as
`list(range(curses.COLS - 1)) = [0..8]`, not `0..columns-1`: the last terminal
column 9 is in neither the pool nor any stream. -/
theorem column_pool_full_range_cex :
    (initState 10).pool ≠ List.range 10
    ∧ (9 : Nat) ∈ List.range 10
    ∧ ¬((9 : Nat) ∈ (initState 10).pool ∨ (9 : Nat) ∈ heldColumns (initState 10).rains) := by
  decide

/-- C1 (amended): the pool starts as the set of integers `0..columns-2` (the last
terminal column is never allocated), and at every frame boundary, for every frame
count and every sequence of random choices and key inputs, the free pool together
with the columns held by the streams is a permutation of `0..columns-2` with no
duplicates — i.e. each of those columns is in exactly one of the two. -/
theorem column_pool_partition (rows : Int) (count cols : Nat) (fcs : Nat → FrameChoice)
    (n : Nat) :
    List.Perm
      ((runMain rows count cols fcs n).pool ++ heldColumns (runMain rows count cols fcs n).rains)
      (List.range (cols - 1))
    ∧ ((runMain rows count cols fcs n).pool
        ++ heldColumns (runMain rows count cols fcs n).rains).Nodup := by
  have hperm : ∀ m, List.Perm
      ((runMain rows count cols fcs m).pool ++ heldColumns (runMain rows count cols fcs m).rains)
      (List.range (cols - 1)) := by
    intro m
    induction m with
    | zero =>
      simp only [runMain, initState, heldColumns, List.append_nil]
      exact List.Perm.refl _
    | succ m ih => exact (frame_perm rows count (fcs m) _).trans ih
  exact ⟨hperm n, (hperm n).symm.nodup (List.nodup_range _)⟩

/-- C2 counterexample: `rows = 1`, 2 terminal columns, max 1 stream.  Entering frame
3 the single stream is Finished (its tail reached row 1), yet after frame 3 the
active list still has length 1 — the scheduler never removes entries — and the pool
is empty: the released column was immediately re-acquired by the replacement stream,
so it does not reappear in the free pool at any frame boundary. -/
theorem stream_retirement_cex :
    animAlive 1 (⟨2, 1, 1⟩ : AnimState) = false
    ∧ (runMain 1 1 2 sampleFrames 2).rains = [some ⟨0, 0, 1, ⟨2, 1, 1⟩⟩]
    ∧ (runMain 1 1 2 sampleFrames 3).rains.length = 1
    ∧ (runMain 1 1 2 sampleFrames 3).pool = [] := by
  decide

/-- C2 (amended): a stream stops being advanced exactly when the tail it computed at
its last advance satisfies `tail ≥ rows`, i.e. exactly when `head - length ≥ rows`
for the pre-advance head of its final frame.  At the advance call that detects this,
the wrapper generator — not the Scheduler — appends the stream's column to the pool
exactly once and immediately re-acquires a (possibly identical) column for a fresh
replacement stream in the same list slot; a still-falling stream keeps its column
and the pool unchanged, and the advance sweep never changes the length of the
active list. -/
theorem stream_finished_transition (rows L spd : Int) (s : AnimState) (c : Choice)
    (pool p : List Nat) (g g2 : RainGen) (cs : Nat → Choice) (k : Nat)
    (gs : List (Option RainGen)) :
    (0 < rows → (animAlive rows (animStep L spd s) = false ↔ rows + L ≤ s.head))
    ∧ (animAlive rows g.st = false →
        rainNext rows c (pool, some g) = acquireAndStep c (pool ++ [g.x]))
    ∧ (animAlive rows g2.st = true →
        rainNext rows c (pool, some g2)
          = (pool, some ⟨g2.x, g2.maxLength, g2.speed, animStep g2.maxLength g2.speed g2.st⟩))
    ∧ (sweep rows cs k p gs).2.length = gs.length := by
  refine ⟨?_, ?_, ?_, sweep_length rows cs gs k p⟩
  · intro hrows
    simp only [animAlive, animStep_tail, decide_eq_false_iff_not]
    split_ifs <;> omega
  · intro hfin
    rw [rainNext_some, if_neg (by simp [hfin])]
  · intro hal
    rw [rainNext_some, if_pos hal]

/-- C2 witness: the finish test, the release-and-recycle step, the keep-column step
and the sweep length at concrete inputs. -/
theorem stream_finished_transition_witness :
    (animAlive 20 (animStep 10 2 ⟨30, 23, 18⟩) = false ↔ (20 : Int) + 10 ≤ 30)
    ∧ rainNext 20 ⟨0, 5, 1⟩ ([], some ⟨2, 10, 2, ⟨32, 25, 20⟩⟩)
        = acquireAndStep ⟨0, 5, 1⟩ ([] ++ [2])
    ∧ rainNext 20 ⟨0, 5, 1⟩ ([], some ⟨2, 10, 2, ⟨10, 5, 0⟩⟩)
        = ([], some ⟨2, 10, 2, animStep 10 2 ⟨10, 5, 0⟩⟩)
    ∧ (sweep 20 (fun _ => sampleChoice) 0 [0] []).2.length = 0 :=
  ⟨(stream_finished_transition 20 10 2 ⟨30, 23, 18⟩ ⟨0, 5, 1⟩ [] [0]
      ⟨2, 10, 2, ⟨32, 25, 20⟩⟩ ⟨2, 10, 2, ⟨10, 5, 0⟩⟩ (fun _ => sampleChoice) 0 []).1
      (by decide),
   (stream_finished_transition 20 10 2 ⟨30, 23, 18⟩ ⟨0, 5, 1⟩ [] [0]
      ⟨2, 10, 2, ⟨32, 25, 20⟩⟩ ⟨2, 10, 2, ⟨10, 5, 0⟩⟩ (fun _ => sampleChoice) 0 []).2.1
      (by decide),
   (stream_finished_transition 20 10 2 ⟨30, 23, 18⟩ ⟨0, 5, 1⟩ [] [0]
      ⟨2, 10, 2, ⟨32, 25, 20⟩⟩ ⟨2, 10, 2, ⟨10, 5, 0⟩⟩ (fun _ => sampleChoice) 0 []).2.2.1
      (by decide),
   (stream_finished_transition 20 10 2 ⟨30, 23, 18⟩ ⟨0, 5, 1⟩ [] [0]
      ⟨2, 10, 2, ⟨32, 25, 20⟩⟩ ⟨2, 10, 2, ⟨10, 5, 0⟩⟩ (fun _ => sampleChoice) 0 []).2.2.2⟩

/-- C6 (confirmed): the creation step appends one (unstarted) stream exactly when the
active count is strictly below the configured maximum and the pool is non-empty; with
an empty pool it is a no-op, at or above the maximum it is a no-op, and along any run
of the main loop the active-stream count never exceeds the configured maximum. -/
theorem add_rain_spec (count : Nat) (rains : List (Option RainGen)) (pool : List Nat) :
    (∀ rains2 : List (Option RainGen), add_rain count rains2 [] = rains2)
    ∧ (rains.length < count → pool ≠ [] → add_rain count rains pool = rains ++ [none])
    ∧ (∀ (count2 : Nat) (rains2 : List (Option RainGen)) (pool2 : List Nat),
        count2 ≤ rains2.length → add_rain count2 rains2 pool2 = rains2)
    ∧ (∀ (rows : Int) (cols : Nat) (fcs : Nat → FrameChoice) (n : Nat),
        (runMain rows count cols fcs n).rains.length ≤ count) := by
  refine ⟨?_, ?_, ?_, fun rows cols fcs n => runMain_rains_length rows count cols fcs n⟩
  · intro rains2
    rw [add_rain, if_neg (by simp)]
  · intro h1 h2
    rw [add_rain, if_pos ⟨h1, List.length_pos.mpr h2⟩]
  · intro count2 rains2 pool2 h
    rw [add_rain, if_neg (by omega)]

/-- C6 witness: the three creation cases and the count bound at concrete inputs. -/
theorem add_rain_spec_witness :
    add_rain 2 [] [] = []
    ∧ add_rain 2 [] [0, 1] = [] ++ [none]
    ∧ add_rain 0 [none] [0] = [none]
    ∧ (runMain 3 2 4 sampleFrames 2).rains.length ≤ 2 :=
  ⟨(add_rain_spec 2 [] [0, 1]).1 [],
   (add_rain_spec 2 [] [0, 1]).2.1 (by decide) (by decide),
   (add_rain_spec 2 [] [0, 1]).2.2.1 0 [none] [0] (by decide),
   (add_rain_spec 2 [] [0, 1]).2.2.2 3 4 sampleFrames 2⟩

theorem mem_pyRange {r a b : Int} (h : r ∈ pyRange a b) : a ≤ r ∧ r < b := by
  rw [pyRange, List.mem_map] at h
  obtain ⟨k, hk, rfl⟩ := h
  rw [List.mem_range] at hk
  constructor
  · have : (0 : Int) ≤ (k : Int) := Int.natCast_nonneg k
    omega
  · by_cases hb : 0 ≤ b - a
    · have h1 : ((b - a).toNat : Int) = b - a := Int.toNat_of_nonneg hb
      have h2 : (k : Int) < ((b - a).toNat : Int) := by exact_mod_cast hk
      omega
    · have h1 : (b - a).toNat = 0 := Int.toNat_of_nonpos (by omega)
      omega

theorem mem_colCells {c : Cell} {a b x : Int}
    (h : c ∈ (pyRange a b).map (fun i => Cell.mk i x)) :
    a ≤ c.row ∧ c.row < b ∧ c.col = x := by
  simp only [List.mem_map] at h
  obtain ⟨i, hi, rfl⟩ := h
  have hb := mem_pyRange hi
  exact ⟨hb.1, hb.2, rfl⟩

/-- C7 (confirmed): every cell written during one advance of a stream whose head is
at a nonnegative row (true of every reachable state, by the second conjunct) lies
within the terminal bounds: row in `[0, rows)` — the head is painted only under its
`head < rows` guard and every row range is clamped — and column equal to the
stream's column `x`, in `[0, cols)` whenever `x` is. -/
theorem cell_writes_in_bounds (ug : Bool) (rows cols L spd x : Int) (s : AnimState) :
    (0 ≤ s.head → 0 ≤ x → x < cols →
      cellsInBounds rows cols (animStepCells ug rows L spd x s) = true)
    ∧ (0 ≤ spd → ∀ k, 0 ≤ (animIter L spd k).head) := by
  refine ⟨?_, fun hs k => animIter_head_nonneg L spd k hs⟩
  intro hh hx1 hx2
  rw [cellsInBounds, List.all_eq_true]
  intro c hc
  simp only [Bool.and_eq_true, decide_eq_true_eq]
  have key : 0 ≤ c.row ∧ c.row < rows ∧ c.col = x := by
    rw [animStepCells] at hc
    rcases List.mem_append.mp hc with h | h
    · rcases List.mem_append.mp h with h | h
      · by_cases ht : s.head - L < 0
        · rw [if_pos ht] at h
          exact absurd h (List.not_mem_nil _)
        · rw [if_neg ht] at h
          rw [show_tail_cells] at h
          have hb := mem_colCells h
          exact ⟨le_trans (le_max_left 0 _) hb.1,
            lt_of_lt_of_le hb.2.1 (min_le_right _ _), hb.2.2⟩
      · rw [show_body_cells] at h
        have htl : 0 ≤ (if s.head - L < 0 then (0 : Int) else s.head - L) := by
          split_ifs <;> omega
        have hmid : 0 ≤ (if s.head - L / 2 < 0 then (0 : Int) else s.head - L / 2) := by
          split_ifs <;> omega
        by_cases hug : ug = true
        · rw [if_pos hug] at h
          have hb := mem_colCells h
          exact ⟨le_trans htl hb.1, lt_of_lt_of_le hb.2.1 (min_le_right _ _), hb.2.2⟩
        · rw [if_neg hug] at h
          rcases List.mem_append.mp h with h | h
          · have hb := mem_colCells h
            exact ⟨le_trans htl hb.1, lt_of_lt_of_le hb.2.1 (min_le_right _ _), hb.2.2⟩
          · have hb := mem_colCells h
            exact ⟨le_trans hmid hb.1, lt_of_lt_of_le hb.2.1 (min_le_right _ _), hb.2.2⟩
    · rw [show_head_cells] at h
      by_cases hhr : s.head < rows
      · rw [if_pos hhr] at h
        obtain rfl := List.mem_singleton.mp h
        exact ⟨hh, hhr, rfl⟩
      · rw [if_neg hhr] at h
        exact absurd h (List.not_mem_nil _)
  exact ⟨⟨⟨key.1, key.2.1⟩, by rw [key.2.2]; exact hx1⟩, by rw [key.2.2]; exact hx2⟩

/-- C7 witness: the bounds check passes for a concrete gradient-mode advance, and a
concrete iterated head is nonnegative. -/
theorem cell_writes_in_bounds_witness :
    cellsInBounds 20 10 (animStepCells true 20 10 2 3 ⟨5, 2, 0⟩) = true
    ∧ 0 ≤ (animIter 10 2 4).head :=
  ⟨(cell_writes_in_bounds true 20 10 10 2 3 ⟨5, 2, 0⟩).1 (by decide) (by decide) (by decide),
   (cell_writes_in_bounds true 20 10 10 2 3 ⟨5, 2, 0⟩).2 (by decide) 4⟩

end MatrixRain
